import Mathlib

/-!
# Ingress controller (`pkg/controller.go`): embedding and verified properties

The controller watches Services and Ingresses, turns notifications into work-queue
keys and reconciles each key with `syncService`.  This file embeds the functions of
`pkg/controller.go` as Lean functions over explicit state and proves properties of
them.

Conventions of the embedding

* A Go `string` is a Lean `String`; a Go `map[string]string` is an association list.
* A Go `error` is a `GoError`; the nullable `error` is `Option GoError` (`none` is `nil`).
* A Go `interface{}` event payload is an `Obj`.
* Lister and client calls are functions of an explicit world state; every call that
  `syncService` performs is appended, with its outcome, to a list of `Event`s.
* The library pieces the controller imports from `k8s.io/apimachinery` and
  `k8s.io/client-go` (key functions, owner references, the work queue) are transcribed
  next to the code that uses them, each with a comment naming the library function.
-/

namespace IngressController

/-! ## Errors -/

deriving instance DecidableEq for Except

/-- A Go `error` value.  `notFound` stands for an API status error whose reason is
`NotFound` (what a lister returns for a missing object), `keyFormat` for the error
`fmt.Errorf("unexpected key format: %q", key)` of `cache.SplitMetaNamespaceKey`,
`noMeta` for `fmt.Errorf("object has no meta: %v", err)` of the key function, and
`other` for every other error. -/
inductive GoError where
  | notFound (msg : String)
  | keyFormat (key : String)
  | noMeta (msg : String)
  | other (msg : String)
  deriving DecidableEq, Repr

/-- The Go function `errors.IsNotFound(err)`: true exactly for a non-nil error whose
status reason is `NotFound`. -/
def IsNotFound : Option GoError → Bool
  | some (GoError.notFound _) => true
  | _ => false

/-! ## Data model (`k8s.io/api`, fields the controller reads or writes) -/

/-- The type `metav1.OwnerReference`. -/
structure OwnerReference where
  APIVersion : String
  Kind : String
  Name : String
  UID : String
  Controller : Option Bool
  BlockOwnerDeletion : Option Bool
  deriving DecidableEq, Repr

/-- The content of every field of an object that the embedding does not list (for a
Service: `TypeMeta`, the rest of `ObjectMeta` such as `ResourceVersion`, `Generation`
and `Labels`, `Spec` and `Status`), together with whether an empty map or slice
among the listed fields is `nil`, as one value: two objects of one type agree on all
of this exactly when their values are equal.  The controller never reads it; only
`reflect.DeepEqual` depends on it.  The empty content stands for all of these fields
being unset. -/
structure UnreadFields where
  content : String
  deriving DecidableEq, Repr

/-- The type `metav1.ObjectMeta`, restricted to the fields used by the controller. -/
structure ObjectMeta where
  Name : String
  Namespace : String
  UID : String
  Annotations : List (String × String)
  OwnerReferences : List OwnerReference
  deriving DecidableEq, Repr

/-- The type `corev1.Service`: the object metadata the controller reads, and in
`Rest` everything else of the object. -/
structure Service extends ObjectMeta where
  Rest : UnreadFields := { content := "" }
  deriving DecidableEq, Repr

/-- The type `networkingv1.PathType`. -/
inductive PathType where
  | PathTypeExact
  | PathTypePrefix
  | PathTypeImplementationSpecific
  deriving DecidableEq, Repr

/-- The type `networkingv1.ServiceBackendPort`. -/
structure ServiceBackendPort where
  Name : String
  Number : Int
  deriving DecidableEq, Repr

/-- The type `networkingv1.IngressServiceBackend`. -/
structure IngressServiceBackend where
  Name : String
  Port : ServiceBackendPort
  deriving DecidableEq, Repr

/-- The type `networkingv1.IngressBackend`. -/
structure IngressBackend where
  Service : Option IngressServiceBackend
  deriving DecidableEq, Repr

/-- The type `networkingv1.HTTPIngressPath`. -/
structure HTTPIngressPath where
  Path : String
  PathType : Option PathType
  Backend : IngressBackend
  deriving DecidableEq, Repr

/-- The type `networkingv1.HTTPIngressRuleValue`. -/
structure HTTPIngressRuleValue where
  Paths : List HTTPIngressPath
  deriving DecidableEq, Repr

/-- The type `networkingv1.IngressRule` (the embedded `IngressRuleValue` holds the one
field `HTTP`). -/
structure IngressRule where
  Host : String
  HTTP : Option HTTPIngressRuleValue
  deriving DecidableEq, Repr

/-- The type `networkingv1.IngressSpec`. -/
structure IngressSpec where
  IngressClassName : Option String
  Rules : List IngressRule
  deriving DecidableEq, Repr

/-- The type `networkingv1.Ingress`: the metadata and the part of the spec that the
controller reads or writes, and in `Rest` everything else of the object. -/
structure Ingress extends ObjectMeta where
  Spec : IngressSpec
  Rest : UnreadFields := { content := "" }
  deriving DecidableEq, Repr

/-- A Go `interface{}` value as delivered by the informers to the event handlers: a
`*Service`, an `*Ingress`, a `cache.ExplicitKey`, or a value without object metadata. -/
inductive Obj where
  | service (s : Service)
  | ingress (i : Ingress)
  | explicitKey (k : String)
  | noMeta (desc : String)
  deriving DecidableEq, Repr

/-! ## Keys (`k8s.io/client-go/tools/cache`) -/

/-- The Go function `strings.Split(s, sep)` for a separator of one character, on the
characters of `s`: the pieces between consecutive separators, always at least one. -/
def stringsSplit (sep : Char) : List Char → List (List Char)
  | [] => [[]]
  | c :: cs =>
    if c = sep then [] :: stringsSplit sep cs
    else
      match stringsSplit sep cs with
      | [] => [[c]]
      | p :: ps => (c :: p) :: ps

/-- The library function `cache.SplitMetaNamespaceKey`:
`parts := strings.Split(key, "/")`; one part is a name without namespace, two parts
are namespace and name, anything else is the error `unexpected key format`. -/
def SplitMetaNamespaceKey (key : String) : Except GoError (String × String) :=
  match stringsSplit '/' key.data with
  | [name] => Except.ok ("", String.mk name)
  | [ns, name] => Except.ok (String.mk ns, String.mk name)
  | _ => Except.error (GoError.keyFormat key)

/-- The library method `ObjectName.String()`: `Namespace + "/" + Name` when
the namespace is not empty, and `Name` alone otherwise. -/
def objectNameString (m : ObjectMeta) : String :=
  if m.Namespace.length > 0 then m.Namespace ++ "/" ++ m.Name else m.Name

/-- The library function `cache.MetaNamespaceKeyFunc`: an `ExplicitKey` is its own
key, an object with metadata has the key `ObjectName.String()`, and a value without
metadata gives the empty key and the error `object has no meta`. -/
def MetaNamespaceKeyFunc : Obj → String × Option GoError
  | Obj.explicitKey k => (k, none)
  | Obj.service s => (objectNameString s.toObjectMeta, none)
  | Obj.ingress i => (objectNameString i.toObjectMeta, none)
  | Obj.noMeta d => ("", some (GoError.noMeta d))

/-- The key `deleteIngress` adds: the Go expression
`ingress.Namespace + "/" + ingress.Name`. -/
def deleteIngressKey (ingress : Ingress) : String :=
  ingress.Namespace ++ "/" ++ ingress.Name

/-! ## Owner references (`k8s.io/apimachinery/pkg/apis/meta/v1`) -/

/-- The library function `metav1.GetControllerOf`: the first owner reference whose
`Controller` pointer is set and true, `none` (Go `nil`) when there is none. -/
def GetControllerOf (m : ObjectMeta) : Option OwnerReference :=
  m.OwnerReferences.find? (fun ref => ref.Controller == some true)

/-- The library function `metav1.NewControllerRef(owner, gvk)` at the group-version-kind
`apicore.SchemeGroupVersion.WithKind(kind)`, whose group is empty and whose version
is `v1`, so that `gvk.GroupVersion().String()` is `"v1"`. -/
def NewControllerRef (owner : ObjectMeta) (kind : String) : OwnerReference :=
  { APIVersion := "v1"
    Kind := kind
    Name := owner.Name
    UID := owner.UID
    BlockOwnerDeletion := some true
    Controller := some true }

/-! ## Desired state: `constructIngress` -/

/-- The function `constructIngress` of `controller.go`. -/
def constructIngress (service : Service) : Ingress :=
  let ingressClassName := "nginx"
  let pathType := PathType.PathTypePrefix
  { Name := service.Name
    Namespace := service.Namespace
    UID := ""
    Annotations := []
    OwnerReferences := [NewControllerRef service.toObjectMeta "Service"]
    Spec :=
      { IngressClassName := some ingressClassName
        Rules :=
          [ { Host := "example.com"
              HTTP := some
                { Paths :=
                    [ { Path := "/"
                        PathType := some pathType
                        Backend :=
                          { Service := some
                              { Name := service.Name
                                Port := { Name := "", Number := 80 } } } } ] } } ] } }

/-! ## Work queue (`k8s.io/client-go/util/workqueue`) -/

/-- A call of a method of the work queue that changes it, as recorded in its log. -/
inductive QueueCall where
  | Add (key : String)
  | AddRateLimited (key : String)
  | Forget (key : String)
  | Get
  | Done (key : String)
  deriving DecidableEq, Repr

/-- Modelled from the spec: the Work Queue of section 4.1, in the code the library
type `workqueue.RateLimitingInterface` built by `NewNamedRateLimitingQueue`, which is
not among the sources.  `queue` holds the keys ready to be handed out in order,
`dirty` the keys that need processing, `processing` the keys handed out and not yet
done, `waiting` the keys scheduled by `AddRateLimited` whose delay has not elapsed,
`failures` the per-key failure counter of the rate limiter, and `calls` the log of
the calls made on the queue. -/
structure WorkQueue where
  queue : List String
  dirty : List String
  processing : List String
  waiting : List String
  failures : String → Nat
  shuttingDown : Bool
  calls : List QueueCall

namespace WorkQueue

/-- A fresh queue: nothing queued, every failure counter zero. -/
def empty : WorkQueue :=
  { queue := [], dirty := [], processing := [], waiting := []
    failures := fun _ => 0, shuttingDown := false, calls := [] }

/-- Modelled from the spec: `Add(key)` inserts the key if it is absent from the
pending set and is a no-op otherwise; a key added while it is in flight is only
marked and becomes available at `Done`. -/
def Add (q : WorkQueue) (key : String) : WorkQueue :=
  let q := { q with calls := q.calls ++ [QueueCall.Add key] }
  if q.shuttingDown then q
  else if key ∈ q.dirty then q
  else
    let q := { q with dirty := q.dirty ++ [key] }
    if key ∈ q.processing then q
    else { q with queue := q.queue ++ [key] }

/-- Modelled from the spec: `NumRequeues(key)` returns the current failure counter. -/
def NumRequeues (q : WorkQueue) (key : String) : Nat :=
  q.failures key

/-- Modelled from the spec: `AddRateLimited(key)` re-adds the key after a delay
computed from the per-key failure count; asking the rate limiter for the delay
increments that count.  The key is recorded in `waiting`. -/
def AddRateLimited (q : WorkQueue) (key : String) : WorkQueue :=
  { q with
    calls := q.calls ++ [QueueCall.AddRateLimited key]
    failures := Function.update q.failures key (q.failures key + 1)
    waiting := q.waiting ++ [key] }

/-- Modelled from the spec: `Forget(key)` resets the per-key failure counter to zero. -/
def Forget (q : WorkQueue) (key : String) : WorkQueue :=
  { q with
    calls := q.calls ++ [QueueCall.Forget key]
    failures := Function.update q.failures key 0 }

/-- The outcome of `Get()`: it blocks while the queue is empty and open, signals
shutdown once the queue is closed and drained, and otherwise hands out the first key. -/
inductive GetResult where
  | blocked
  | shutdown (q : WorkQueue)
  | item (key : String) (q : WorkQueue)

/-- Modelled from the spec: `Get()` blocks until a key is available, returns it and
marks it in flight; it returns the shutdown signal once closed and drained. -/
def Get (q : WorkQueue) : GetResult :=
  match q.queue with
  | [] =>
    if q.shuttingDown then
      GetResult.shutdown { q with calls := q.calls ++ [QueueCall.Get] }
    else GetResult.blocked
  | key :: rest =>
    GetResult.item key
      { q with
        calls := q.calls ++ [QueueCall.Get]
        queue := rest
        processing := q.processing ++ [key]
        dirty := q.dirty.erase key }

/-- Modelled from the spec: `Done(key)` marks the key no longer in flight; a key that
was re-added while in flight becomes available again. -/
def Done (q : WorkQueue) (key : String) : WorkQueue :=
  let q := { q with
    calls := q.calls ++ [QueueCall.Done key]
    processing := q.processing.erase key }
  if key ∈ q.dirty then { q with queue := q.queue ++ [key] } else q

end WorkQueue

/-! ## The controller -/

/-- The constant `maxRetry` of `controller.go`. -/
def maxRetry : Nat := 10

/-- The constant `workNum` of `controller.go`. -/
def workNum : Nat := 5

/-- A call that `syncService` makes on a lister or on the remote client. -/
inductive Call where
  | serviceGet (ns name : String)
  | ingressGet (ns name : String)
  | create (ns : String) (ig : Ingress)
  | delete (ns name : String)
  deriving DecidableEq, Repr

/-- A performed call together with the error it returned (`none` for `nil`). -/
structure Event where
  call : Call
  err : Option GoError
  deriving DecidableEq, Repr

/-- Whether the event is a call on the remote client (Create or Delete). -/
def Event.isRemote (e : Event) : Bool :=
  match e.call with
  | Call.create _ _ => true
  | Call.delete _ _ => true
  | _ => false

/-- Whether the event is a lister lookup. -/
def Event.isLookup (e : Event) : Bool :=
  match e.call with
  | Call.serviceGet _ _ => true
  | Call.ingressGet _ _ => true
  | _ => false

/-- The struct `controller` of `controller.go` without its queue: the two listers
and the remote client, as functions of a world state `σ`.  A lister `Get` returns
either the object or an error; the client calls return the new world and their
error. -/
structure controller (σ : Type) where
  serviceLister : σ → String → String → Except GoError Service
  ingressLister : σ → String → String → Except GoError Ingress
  clientCreate : σ → String → Ingress → σ × Option GoError
  clientDelete : σ → String → String → σ × Option GoError

/-- The mutable state a running controller acts on: the world behind listers and
client, the work queue, the calls performed so far, and the errors handed to
`runtime.HandleError`. -/
structure State (σ : Type) where
  world : σ
  queue : WorkQueue
  events : List Event
  reported : List GoError

/-- The Go pair `(object, err)` a lister `Get` returns. -/
def goPair {α : Type} : Except GoError α → Option α × Option GoError
  | Except.ok a => (some a, none)
  | Except.error e => (none, some e)

/-- The Go expression `_, ok := service.GetAnnotations()[key]`. -/
def hasAnnotationKey (m : ObjectMeta) (key : String) : Bool :=
  m.Annotations.any (fun kv => kv.1 == key)

/-- The Go function `reflect.DeepEqual` on two `map[string]string` values held as
association lists, in which the first binding of a key counts: the maps have the same
keys and the same value at every key, whatever the order of the bindings. -/
def mapDeepEqual (a b : List (String × String)) : Bool :=
  a.all (fun kv => List.lookup kv.1 b == List.lookup kv.1 a)
    && b.all (fun kv => List.lookup kv.1 a == List.lookup kv.1 b)

/-- The Go function `reflect.DeepEqual` on the listed fields of two `ObjectMeta`
values: strings by equality, the annotations as maps, the owner references as slices
(element by element, in order). -/
def ObjectMeta.DeepEqual (a b : ObjectMeta) : Bool :=
  a.Name == b.Name && a.Namespace == b.Namespace && a.UID == b.UID
    && mapDeepEqual a.Annotations b.Annotations
    && a.OwnerReferences == b.OwnerReferences

/-- The Go function `reflect.DeepEqual` on event payloads.  Values of different
dynamic types are never deeply equal; two objects of one type are deeply equal when
all their fields are, the listed ones and, through `Rest`, all the others. -/
def DeepEqual : Obj → Obj → Bool
  | Obj.service a, Obj.service b =>
    a.toObjectMeta.DeepEqual b.toObjectMeta && a.Rest == b.Rest
  | Obj.ingress a, Obj.ingress b =>
    a.toObjectMeta.DeepEqual b.toObjectMeta && a.Spec == b.Spec && a.Rest == b.Rest
  | Obj.explicitKey a, Obj.explicitKey b => a == b
  | Obj.noMeta a, Obj.noMeta b => a == b
  | _, _ => false

/-- The method `enqueue`: the key function's error is reported and the key (empty in
that case) is added all the same. -/
def enqueue {σ : Type} (st : State σ) (obj : Obj) : State σ :=
  let (key, err) := MetaNamespaceKeyFunc obj
  let st :=
    match err with
    | some e => { st with reported := st.reported ++ [e] }
    | none => st
  { st with queue := st.queue.Add key }

/-- The method `addService`. -/
def addService {σ : Type} (st : State σ) (obj : Obj) : State σ :=
  enqueue st obj

/-- The method `updateService`. -/
def updateService {σ : Type} (st : State σ) (oldObj newObj : Obj) : State σ :=
  if DeepEqual oldObj newObj then st
  else enqueue st newObj

/-- The method `deleteIngress`; `none` is the panic of the type assertion
`obj.(*apinetworking.Ingress)` on a payload that is not an Ingress. -/
def deleteIngress {σ : Type} (st : State σ) (obj : Obj) : Option (State σ) :=
  match obj with
  | Obj.ingress ingress =>
    match GetControllerOf ingress.toObjectMeta with
    | none => some st
    | some ownerReference =>
      if ownerReference.Kind ≠ "Service" then some st
      else some { st with queue := st.queue.Add (deleteIngressKey ingress) }
  | _ => none

/-- The result of one `syncService` call: the world afterwards, the calls it
performed in order, and the error it returned. -/
structure SyncResult (σ : Type) where
  world : σ
  events : List Event
  err : Option GoError

/-- The remote calls (Create and Delete) among the calls of a result. -/
def SyncResult.remoteCalls {σ : Type} (r : SyncResult σ) : List Event :=
  r.events.filter Event.isRemote

/-- The method `syncService`. -/
def syncService {σ : Type} (c : controller σ) (w : σ) (key : String) : SyncResult σ :=
  match SplitMetaNamespaceKey key with
  | Except.error err => { world := w, events := [], err := some err }
  | Except.ok (namespaceKey, name) =>
    match c.serviceLister w namespaceKey name with
    | Except.error err =>
      let ev := [Event.mk (Call.serviceGet namespaceKey name) (some err)]
      if IsNotFound (some err) then { world := w, events := ev, err := none }
      else { world := w, events := ev, err := some err }
    | Except.ok service =>
      let ok := hasAnnotationKey service.toObjectMeta "ingress/http"
      let (ingress, err) := goPair (c.ingressLister w namespaceKey name)
      let ev := [Event.mk (Call.serviceGet namespaceKey name) none,
                 Event.mk (Call.ingressGet namespaceKey name) err]
      if err ≠ none && !IsNotFound err then { world := w, events := ev, err := err }
      else if ok && IsNotFound err then
        let ig := constructIngress service
        let (w1, err1) := c.clientCreate w namespaceKey ig
        { world := w1, events := ev ++ [Event.mk (Call.create namespaceKey ig) err1], err := err1 }
      else if !ok && ingress ≠ none then
        let (w1, err1) := c.clientDelete w namespaceKey name
        { world := w1, events := ev ++ [Event.mk (Call.delete namespaceKey name) err1], err := err1 }
      else { world := w, events := ev, err := none }

/-- The method `handleError`. -/
def handleError {σ : Type} (st : State σ) (key : String) (err : GoError) : State σ :=
  let st :=
    if st.queue.NumRequeues key ≤ maxRetry then
      { st with queue := st.queue.AddRateLimited key }
    else st
  let st := { st with reported := st.reported ++ [err] }
  { st with queue := st.queue.Forget key }

/-- The method `processNextWorkItem`; `none` stands for a worker blocked in `Get()`.
The deferred `Done(item)` runs last. -/
def processNextWorkItem {σ : Type} (c : controller σ) (st : State σ) : Option (Bool × State σ) :=
  match st.queue.Get with
  | WorkQueue.GetResult.blocked => none
  | WorkQueue.GetResult.shutdown q => some (false, { st with queue := q })
  | WorkQueue.GetResult.item key q =>
    let st := { st with queue := q }
    let r := syncService c st.world key
    let st := { st with world := r.world, events := st.events ++ r.events }
    let st :=
      match r.err with
      | some err => handleError st key err
      | none => st
    some (true, { st with queue := st.queue.Done key })

/-- Running `syncService` on the same key `n` times in a row, each run starting from
the world the previous one left: the results in order. -/
def syncServiceTimes {σ : Type} (c : controller σ) (key : String) : Nat → σ → List (SyncResult σ)
  | 0, _ => []
  | n + 1, w =>
    let r := syncService c w key
    r :: syncServiceTimes c key n r.world

/-- Calling `handleError` for the same key `n` times in a row (`n` consecutive failed
reconciliations, each failing with `err`). -/
def handleErrorTimes {σ : Type} (key : String) (err : GoError) : Nat → State σ → State σ
  | 0, st => st
  | n + 1, st => handleErrorTimes key err n (handleError st key err)

/-! ## A cluster in which the remote calls succeed -/

/-- A cluster whose remote store is read directly by the listers: the Services and
the Ingresses that exist. -/
structure Cluster where
  services : List Service
  ingresses : List Ingress
  deriving DecidableEq, Repr

/-- Whether object metadata carries the given namespace and name. -/
def ObjectMeta.isNamed (m : ObjectMeta) (ns name : String) : Bool :=
  m.Namespace == ns && m.Name == name

/-- The controller over a `Cluster`, the environment in which idempotence is
stated: a lister finds the object with the given namespace and name or reports
`NotFound`; `Create` stores the Ingress in the namespace of the request and `Delete`
removes the Ingress of that namespace and name; both always succeed. -/
def clusterController : controller Cluster where
  serviceLister := fun w ns name =>
    match w.services.find? (fun s => s.isNamed ns name) with
    | some s => Except.ok s
    | none => Except.error (GoError.notFound name)
  ingressLister := fun w ns name =>
    match w.ingresses.find? (fun i => i.isNamed ns name) with
    | some i => Except.ok i
    | none => Except.error (GoError.notFound name)
  clientCreate := fun w ns ig =>
    ({ w with ingresses := w.ingresses ++ [{ ig with Namespace := ns }] }, none)
  clientDelete := fun w ns name =>
    ({ w with ingresses := w.ingresses.filter (fun i => !i.isNamed ns name) }, none)

/-! ## Variations of a controller -/

/-- The Service with every annotation value replaced by `f key value`; the keys, and
all other fields, stay as they are. -/
def Service.mapAnnotationValues (f : String → String → String) (svc : Service) : Service :=
  { svc with Annotations := svc.Annotations.map (fun kv => (kv.1, f kv.1 kv.2)) }

/-- The controller whose service lister passes every Service it returns through `g`. -/
def controller.mapServices {σ : Type} (c : controller σ) (g : Service → Service) :
    controller σ :=
  { c with serviceLister := fun w ns name => (c.serviceLister w ns name).map g }

/-- The controller over a `Cluster` whose ingress lister is out of order: every
lookup fails with an error that is not NotFound. -/
def brokenListerController : controller Cluster :=
  { clusterController with
    ingressLister := fun _ _ _ => Except.error (GoError.other "timeout") }

/-! ## Scenario objects -/

/-- The state of a controller that has done nothing yet, over the world `w`. -/
def State.start {σ : Type} (w : σ) : State σ :=
  { world := w, queue := WorkQueue.empty, events := [], reported := [] }

/-- A fresh queue in which the failure counter of every key stands at `n`. -/
def queueWithFailures (n : Nat) : WorkQueue :=
  { WorkQueue.empty with failures := fun _ => n }

/-- The Service `default/web` carrying the marker annotation `ingress/http`. -/
def webService : Service :=
  { Name := "web", Namespace := "default", UID := "uid-web"
    Annotations := [("ingress/http", "")], OwnerReferences := [] }

/-- The Service `default/web` with the marker annotation after an update that
changed none of the fields the controller reads (say, its `ResourceVersion`). -/
def touchedService : Service :=
  { webService with Rest := { content := "resourceVersion=2" } }

/-- The Service `default/web` without the marker annotation. -/
def plainService : Service :=
  { Name := "web", Namespace := "default", UID := "uid-web"
    Annotations := [], OwnerReferences := [] }

/-- The Ingress `default/web` owned by the Service `default/web`. -/
def webIngress : Ingress :=
  constructIngress webService

/-- An Ingress `default/web` that has no owner reference. -/
def orphanIngress : Ingress :=
  { Name := "web", Namespace := "default", UID := "", Annotations := []
    OwnerReferences := [], Spec := { IngressClassName := none, Rules := [] } }

/-! # Theorems -/

/-! ## Lemmas on keys -/

theorem stringsSplit_ne_nil (sep : Char) (s : List Char) : stringsSplit sep s ≠ [] := by
  induction s with
  | nil => simp [stringsSplit]
  | cons c cs ih =>
    unfold stringsSplit
    split
    · simp
    · split <;> simp

theorem stringsSplit_of_not_mem (sep : Char) (s : List Char) (h : sep ∉ s) :
    stringsSplit sep s = [s] := by
  induction s with
  | nil => rfl
  | cons c cs ih =>
    have hc : c ≠ sep := fun e => h (by simp [e])
    have hcs : sep ∉ cs := fun e => h (by simp [e])
    simp [stringsSplit, hc, ih hcs]

theorem stringsSplit_append (sep : Char) (a b : List Char) (h : sep ∉ a) :
    stringsSplit sep (a ++ sep :: b) = a :: stringsSplit sep b := by
  induction a with
  | nil => simp [stringsSplit]
  | cons c cs ih =>
    have hc : c ≠ sep := fun e => h (by simp [e])
    have hcs : sep ∉ cs := fun e => h (by simp [e])
    simp [stringsSplit, hc, ih hcs]

theorem stringsSplit_length (sep : Char) (s : List Char) :
    (stringsSplit sep s).length = s.count sep + 1 := by
  induction s with
  | nil => rfl
  | cons c cs ih =>
    unfold stringsSplit
    by_cases hc : c = sep
    · simp [hc, ih]
    · have hne := stringsSplit_ne_nil sep cs
      cases hsp : stringsSplit sep cs with
      | nil => exact absurd hsp hne
      | cons p ps =>
        rw [hsp] at ih
        simp [hc, List.count_cons, ih]
        simpa using ih

theorem SplitMetaNamespaceKey_joined (ns n : String)
    (hns : '/' ∉ ns.data) (hn : '/' ∉ n.data) :
    SplitMetaNamespaceKey (ns ++ "/" ++ n) = Except.ok (ns, n) := by
  have hd : (ns ++ "/" ++ n).data = ns.data ++ '/' :: n.data := by
    simp [String.data_append]
  unfold SplitMetaNamespaceKey
  rw [hd, stringsSplit_append _ _ _ hns, stringsSplit_of_not_mem _ _ hn]

theorem SplitMetaNamespaceKey_bare (n : String) (hn : '/' ∉ n.data) :
    SplitMetaNamespaceKey n = Except.ok ("", n) := by
  unfold SplitMetaNamespaceKey
  rw [stringsSplit_of_not_mem _ _ hn]

theorem SplitMetaNamespaceKey_error_iff (key : String) :
    (∃ e, SplitMetaNamespaceKey key = Except.error e) ↔ 2 ≤ key.data.count '/' := by
  have hl := stringsSplit_length '/' key.data
  unfold SplitMetaNamespaceKey
  constructor
  · rintro ⟨e, he⟩
    split at he
    · cases he
    · cases he
    · rename_i h1 h2
      match hsp : stringsSplit '/' key.data with
      | [] => exact absurd hsp (stringsSplit_ne_nil _ _)
      | [a] => exact absurd hsp (h1 a)
      | [a, b] => exact absurd hsp (h2 a b)
      | a :: b :: c :: r => rw [hsp] at hl; simp at hl; omega
  · intro h
    match hsp : stringsSplit '/' key.data with
    | [] => exact absurd hsp (stringsSplit_ne_nil _ _)
    | [a] => rw [hsp] at hl; simp at hl; omega
    | [a, b] => rw [hsp] at hl; simp at hl; omega
    | a :: b :: c :: r => exact ⟨_, rfl⟩

/-! ## Lemmas on the work queue -/

theorem WorkQueue.Add_calls (q : WorkQueue) (key : String) :
    (q.Add key).calls = q.calls ++ [QueueCall.Add key] := by
  unfold WorkQueue.Add
  simp only
  split
  · rfl
  · split
    · rfl
    · split <;> rfl

theorem WorkQueue.Done_calls (q : WorkQueue) (key : String) :
    (q.Done key).calls = q.calls ++ [QueueCall.Done key] := by
  unfold WorkQueue.Done
  simp only
  split <;> rfl

theorem handleError_calls {σ : Type} (st : State σ) (key : String) (err : GoError) :
    (handleError st key err).queue.calls
      = st.queue.calls
        ++ (if st.queue.NumRequeues key ≤ maxRetry then [QueueCall.AddRateLimited key] else [])
        ++ [QueueCall.Forget key] := by
  unfold handleError
  by_cases h : st.queue.NumRequeues key ≤ maxRetry
  · simp [h, WorkQueue.Forget, WorkQueue.AddRateLimited]
  · simp [h, WorkQueue.Forget]

theorem handleError_NumRequeues {σ : Type} (st : State σ) (key : String) (err : GoError) :
    (handleError st key err).queue.NumRequeues key = 0 := by
  unfold handleError
  simp [WorkQueue.Forget, WorkQueue.NumRequeues]

theorem handleError_frame {σ : Type} (st : State σ) (key : String) (err : GoError) :
    (handleError st key err).world = st.world
    ∧ (handleError st key err).events = st.events
    ∧ (handleError st key err).reported = st.reported ++ [err] := by
  unfold handleError
  by_cases h : st.queue.NumRequeues key ≤ maxRetry <;> simp [h]

theorem handleErrorTimes_succ {σ : Type} (key : String) (err : GoError) (n : Nat)
    (st : State σ) :
    handleErrorTimes key err (n + 1) st
      = handleError (handleErrorTimes key err n st) key err := by
  induction n generalizing st with
  | zero => rfl
  | succ k ih =>
    show handleErrorTimes key err (k + 1) (handleError st key err) = _
    rw [ih]
    rfl

theorem handleErrorTimes_NumRequeues {σ : Type} (key : String) (err : GoError) (n : Nat)
    (st : State σ) (h : st.queue.NumRequeues key = 0) :
    (handleErrorTimes key err n st).queue.NumRequeues key = 0 := by
  cases n with
  | zero => exact h
  | succ k =>
    rw [handleErrorTimes_succ]
    exact handleError_NumRequeues _ _ _

/-- Starting from a state whose failure counter is zero, after any number `n` of
consecutive failures handled by `handleError` the counter of the key is zero again,
and the next failure calls `AddRateLimited(key)` and then `Forget(key)`. -/
theorem handleError_requeues_every_failure {σ : Type} (w : σ) (key : String)
    (err : GoError) (n : Nat) :
    (handleErrorTimes key err n (State.start w)).queue.NumRequeues key = 0
    ∧ (handleErrorTimes key err (n + 1) (State.start w)).queue.calls
      = (handleErrorTimes key err n (State.start w)).queue.calls
        ++ [QueueCall.AddRateLimited key, QueueCall.Forget key]
    ∧ (handleErrorTimes key err 11 (State.start w)).queue.calls
      = (handleErrorTimes key err 10 (State.start w)).queue.calls
        ++ [QueueCall.AddRateLimited key, QueueCall.Forget key] := by
  have h0 : ∀ m, (handleErrorTimes key err m (State.start w)).queue.NumRequeues key = 0 :=
    fun m => handleErrorTimes_NumRequeues key err m _ rfl
  have hstep : ∀ m, (handleErrorTimes key err (m + 1) (State.start w)).queue.calls
      = (handleErrorTimes key err m (State.start w)).queue.calls
        ++ [QueueCall.AddRateLimited key, QueueCall.Forget key] := by
    intro m
    rw [handleErrorTimes_succ, handleError_calls, h0 m]
    simp [maxRetry]
  exact ⟨h0 n, hstep n, hstep 10⟩

theorem handleError_new_calls {σ : Type} (st : State σ) (key : String) (err : GoError) :
    (handleError st key err).queue.calls.drop st.queue.calls.length
      = (if st.queue.NumRequeues key ≤ maxRetry then [QueueCall.AddRateLimited key] else [])
        ++ [QueueCall.Forget key] := by
  rw [handleError_calls, List.append_assoc]
  simp

theorem handleError_waiting {σ : Type} (st : State σ) (key : String) (err : GoError) :
    (handleError st key err).queue.waiting
      = st.queue.waiting
        ++ (if st.queue.NumRequeues key ≤ maxRetry then [key] else []) := by
  unfold handleError
  by_cases h : st.queue.NumRequeues key ≤ maxRetry
  · simp [h, WorkQueue.Forget, WorkQueue.AddRateLimited]
  · simp [h, WorkQueue.Forget]

/-- C5 (counterexample): the 11th consecutive failure of the key `default/web`, from
a fresh queue, calls `AddRateLimited`; and so does a failure that finds the failure
counter of the key at 10, as the 11th would if every requeue had incremented it. -/
theorem retry_ceiling_fails :
    (handleErrorTimes "default/web" (GoError.other "boom") 11 (State.start ())).queue.calls
      = (handleErrorTimes "default/web" (GoError.other "boom") 10
          (State.start ())).queue.calls
        ++ [QueueCall.AddRateLimited "default/web", QueueCall.Forget "default/web"]
    ∧ (queueWithFailures 10).NumRequeues "default/web" = 10
    ∧ QueueCall.AddRateLimited "default/web"
        ∈ (handleError { State.start () with queue := queueWithFailures 10 }
            "default/web" (GoError.other "boom")).queue.calls := by
  refine ⟨(handleError_requeues_every_failure () "default/web" (GoError.other "boom")
    10).2.2, rfl, ?_⟩
  rw [handleError_calls]
  simp [queueWithFailures, WorkQueue.NumRequeues, maxRetry]

/-- C5 (amended): the retry guard of `handleError`, with `maxRetry = 10`: on a failed
reconciliation of `key`, among the calls `handleError` makes on the queue there is
`AddRateLimited(key)`, exactly once, when `NumRequeues(key)` is at most `maxRetry` at
that moment, and not at all when it is larger; the key is then scheduled in the
waiting list.  So a failure that finds the counter at 10 still requeues, and one that
finds it at 11 does not. -/
theorem handleError_retry_guard {σ : Type} (st : State σ) (key : String) (err : GoError) :
    maxRetry = 10
    ∧ (QueueCall.AddRateLimited key
          ∈ (handleError st key err).queue.calls.drop st.queue.calls.length
        ↔ st.queue.NumRequeues key ≤ maxRetry)
    ∧ ((handleError st key err).queue.calls.drop st.queue.calls.length).count
          (QueueCall.AddRateLimited key)
        = (if st.queue.NumRequeues key ≤ maxRetry then 1 else 0)
    ∧ (handleError st key err).queue.waiting
        = st.queue.waiting ++ (if st.queue.NumRequeues key ≤ maxRetry then [key] else [])
    ∧ (st.queue.NumRequeues key = 10 →
        QueueCall.AddRateLimited key
          ∈ (handleError st key err).queue.calls.drop st.queue.calls.length)
    ∧ (st.queue.NumRequeues key = 11 →
        QueueCall.AddRateLimited key
          ∉ (handleError st key err).queue.calls.drop st.queue.calls.length) := by
  have hnew := handleError_new_calls st key err
  refine ⟨rfl, ?_, ?_, handleError_waiting st key err, ?_, ?_⟩
  · rw [hnew]
    by_cases h : st.queue.NumRequeues key ≤ maxRetry <;> simp [h]
  · rw [hnew]
    by_cases h : st.queue.NumRequeues key ≤ maxRetry <;> simp [h]
  · intro h
    rw [hnew]
    simp [h, maxRetry]
  · intro h
    rw [hnew]
    simp [h, maxRetry]

/-- C5 (witness): the guard at the key `default/web` with the counter at 10 (requeued)
and at 11 (not requeued). -/
theorem handleError_retry_guard_witness :
    QueueCall.AddRateLimited "default/web"
        ∈ (handleError { State.start () with queue := queueWithFailures 10 }
            "default/web" (GoError.other "boom")).queue.calls
    ∧ QueueCall.AddRateLimited "default/web"
        ∉ (handleError { State.start () with queue := queueWithFailures 11 }
            "default/web" (GoError.other "boom")).queue.calls := by
  have h10 := (handleError_retry_guard { State.start () with queue := queueWithFailures 10 }
    "default/web" (GoError.other "boom")).2.2.2.2.1 rfl
  have h11 := (handleError_retry_guard { State.start () with queue := queueWithFailures 11 }
    "default/web" (GoError.other "boom")).2.2.2.2.2 rfl
  exact ⟨by simpa [State.start, queueWithFailures, WorkQueue.empty] using h10,
    by simpa [State.start, queueWithFailures, WorkQueue.empty] using h11⟩

/-! ## Event handlers -/

/-- C7: for every deleted Ingress, `deleteIngress` leaves the state (and so the
queue) untouched when the Ingress has no controlling owner reference or when the
controlling owner reference has a kind other than `"Service"`; otherwise it makes
exactly one call on the queue, `Add` of the key `Namespace + "/" + Name` built from
the namespace and name of the Ingress itself. -/
theorem deleteIngress_filter {σ : Type} (st : State σ) (ig : Ingress) :
    (GetControllerOf ig.toObjectMeta = none → deleteIngress st (Obj.ingress ig) = some st)
    ∧ (∀ ref, GetControllerOf ig.toObjectMeta = some ref → ref.Kind ≠ "Service" →
        deleteIngress st (Obj.ingress ig) = some st)
    ∧ (∀ ref, GetControllerOf ig.toObjectMeta = some ref → ref.Kind = "Service" →
        ∃ st1, deleteIngress st (Obj.ingress ig) = some st1
          ∧ st1.queue = st.queue.Add (ig.Namespace ++ "/" ++ ig.Name)
          ∧ st1.queue.calls
              = st.queue.calls ++ [QueueCall.Add (ig.Namespace ++ "/" ++ ig.Name)]
          ∧ st1.world = st.world ∧ st1.events = st.events
          ∧ st1.reported = st.reported) := by
  refine ⟨?_, ?_, ?_⟩
  · intro h
    simp [deleteIngress, h]
  · intro ref h hk
    simp [deleteIngress, h, hk]
  · intro ref h hk
    refine ⟨{ st with queue := st.queue.Add (ig.Namespace ++ "/" ++ ig.Name) }, ?_, rfl, ?_,
      rfl, rfl, rfl⟩
    · simp [deleteIngress, h, hk, deleteIngressKey]
    · exact WorkQueue.Add_calls _ _

/-- C7 (witness): the orphan Ingress `default/web` is filtered out, and the Ingress
that `constructIngress` builds for the Service `default/web` enqueues `default/web`. -/
theorem deleteIngress_filter_witness :
    deleteIngress (State.start ()) (Obj.ingress orphanIngress) = some (State.start ())
    ∧ ∃ st1, deleteIngress (State.start ()) (Obj.ingress webIngress) = some st1
        ∧ st1.queue.calls = [QueueCall.Add "default/web"] := by
  refine ⟨(deleteIngress_filter (State.start ()) orphanIngress).1 rfl, ?_⟩
  obtain ⟨st1, h1, _, h3, _⟩ :=
    (deleteIngress_filter (State.start ()) webIngress).2.2
      (NewControllerRef webService.toObjectMeta "Service") rfl rfl
  exact ⟨st1, h1, h3⟩

/-- C8 (counterexample): an update notification whose old and new object are the
same Service `default/web` makes `updateService` return at once: no call is made on
the queue and nothing is queued. -/
theorem updateService_skips_deeply_equal :
    (updateService (State.start ()) (Obj.service webService)
        (Obj.service webService)).queue.calls = []
    ∧ (updateService (State.start ()) (Obj.service webService)
        (Obj.service webService)).queue.queue = [] := by
  constructor <;> rfl

theorem mapDeepEqual_refl (a : List (String × String)) : mapDeepEqual a a = true := by
  simp [mapDeepEqual]

theorem DeepEqual_service_refl (svc : Service) :
    DeepEqual (Obj.service svc) (Obj.service svc) = true := by
  simp [DeepEqual, ObjectMeta.DeepEqual, mapDeepEqual_refl]

theorem DeepEqual_service_rest (old new : Service) (h : old.Rest ≠ new.Rest) :
    DeepEqual (Obj.service old) (Obj.service new) = false := by
  simp [DeepEqual, h]

theorem lookup_key_mem (k : String) (l : List (String × String)) (v : String)
    (h : List.lookup k l = some v) : ∃ p ∈ l, p.1 = k := by
  induction l with
  | nil => simp [List.lookup] at h
  | cons p ps ih =>
    obtain ⟨k1, v1⟩ := p
    by_cases hk : k = k1
    · exact ⟨(k1, v1), by simp, hk.symm⟩
    · have hb : (k == k1) = false := by simpa using hk
      simp only [List.lookup, hb] at h
      obtain ⟨p, hp, hpk⟩ := ih h
      exact ⟨p, by simp [hp], hpk⟩

theorem mapDeepEqual_iff (a b : List (String × String)) :
    mapDeepEqual a b = true ↔ ∀ k, List.lookup k a = List.lookup k b := by
  constructor
  · intro h k
    simp only [mapDeepEqual, Bool.and_eq_true, List.all_eq_true, beq_iff_eq] at h
    obtain ⟨ha, hb⟩ := h
    cases hka : List.lookup k a with
    | some v =>
      obtain ⟨p, hp, hpk⟩ := lookup_key_mem k a v hka
      have := ha p hp
      rw [hpk] at this
      rw [this, hka]
    | none =>
      cases hkb : List.lookup k b with
      | none => rfl
      | some v =>
        obtain ⟨p, hp, hpk⟩ := lookup_key_mem k b v hkb
        have := hb p hp
        rw [hpk, hka, hkb] at this
        exact this
  · intro h
    simp [mapDeepEqual, h]

theorem DeepEqual_service_iff (old new : Service) :
    DeepEqual (Obj.service old) (Obj.service new) = true ↔
      old.Name = new.Name ∧ old.Namespace = new.Namespace ∧ old.UID = new.UID
      ∧ (∀ k, List.lookup k old.Annotations = List.lookup k new.Annotations)
      ∧ old.OwnerReferences = new.OwnerReferences
      ∧ old.Rest = new.Rest := by
  simp only [DeepEqual, ObjectMeta.DeepEqual, Bool.and_eq_true, beq_iff_eq,
    mapDeepEqual_iff]
  tauto

/-- C8 (amended): for every Service add notification `addService` makes exactly one
call on the queue, `Add` of the key of the Service; for every Service update
notification `updateService` makes that one call for the new object when the old and
the new object are not deeply equal, and leaves the state unchanged when they are.
A Service is deeply equal to itself, and two Services that differ in a field the
controller never reads are not deeply equal, so such an update is enqueued; in
general two Services are deeply equal exactly when they agree on name, namespace,
UID, the value of every annotation key, the owner references and all other fields. -/
theorem service_notifications_enqueue {σ : Type} (st : State σ) (svc : Service)
    (oldObj : Obj) :
    (addService st (Obj.service svc)).queue.calls
        = st.queue.calls ++ [QueueCall.Add (MetaNamespaceKeyFunc (Obj.service svc)).1]
    ∧ (addService st (Obj.service svc)).queue
        = st.queue.Add (MetaNamespaceKeyFunc (Obj.service svc)).1
    ∧ (DeepEqual oldObj (Obj.service svc) = false →
        updateService st oldObj (Obj.service svc) = addService st (Obj.service svc))
    ∧ (DeepEqual oldObj (Obj.service svc) = true →
        updateService st oldObj (Obj.service svc) = st)
    ∧ updateService st (Obj.service svc) (Obj.service svc) = st
    ∧ (∀ old : Service, old.Rest ≠ svc.Rest →
        updateService st (Obj.service old) (Obj.service svc)
          = addService st (Obj.service svc))
    ∧ (∀ old : Service, DeepEqual (Obj.service old) (Obj.service svc) = true ↔
        old.Name = svc.Name ∧ old.Namespace = svc.Namespace ∧ old.UID = svc.UID
        ∧ (∀ k, List.lookup k old.Annotations = List.lookup k svc.Annotations)
        ∧ old.OwnerReferences = svc.OwnerReferences
        ∧ old.Rest = svc.Rest) := by
  refine ⟨?_, rfl, ?_, ?_, ?_, ?_, fun old => DeepEqual_service_iff old svc⟩
  · show (st.queue.Add _).calls = _
    exact WorkQueue.Add_calls _ _
  · intro h
    simp [updateService, h, addService]
  · intro h
    simp [updateService, h]
  · simp [updateService, DeepEqual_service_refl]
  · intro old h
    simp [updateService, DeepEqual_service_rest old svc h, addService]

/-- C8 (witness): an update from the Service without the marker to the Service with
it enqueues `default/web`, so does an update that changed only a field the controller
never reads, and an update between equal objects changes nothing. -/
theorem service_notifications_enqueue_witness :
    updateService (State.start ()) (Obj.service plainService) (Obj.service webService)
        = addService (State.start ()) (Obj.service webService)
    ∧ updateService (State.start ()) (Obj.service webService) (Obj.service webService)
        = State.start ()
    ∧ updateService (State.start ()) (Obj.service webService) (Obj.service touchedService)
        = addService (State.start ()) (Obj.service touchedService)
    ∧ (addService (State.start ()) (Obj.service webService)).queue.calls
        = [QueueCall.Add "default/web"] := by
  have h := service_notifications_enqueue (State.start ()) webService
  have ht := service_notifications_enqueue (State.start ()) touchedService
    (Obj.service webService)
  exact ⟨(h (Obj.service plainService)).2.2.1 (by decide),
    (h (Obj.service webService)).2.2.2.1 (by decide),
    ht.2.2.2.2.2.1 webService (by decide), (h (Obj.service webService)).1⟩

/-! ## Malformed keys -/

theorem syncService_malformed {σ : Type} (c : controller σ) (w : σ) (key : String)
    (e : GoError) (h : SplitMetaNamespaceKey key = Except.error e) :
    syncService c w key = { world := w, events := [], err := some e } := by
  simp [syncService, h]

/-- C6 (counterexample): processing the malformed key `"a/b/c"` with
`processNextWorkItem` re-enqueues it: the calls made on the queue are `Get`,
`AddRateLimited("a/b/c")`, `Forget("a/b/c")` and `Done("a/b/c")`. -/
theorem malformed_key_is_requeued :
    (processNextWorkItem clusterController
        { State.start (Cluster.mk [] []) with queue := WorkQueue.empty.Add "a/b/c" }).map
      (fun r => (r.1, r.2.queue.calls, r.2.queue.waiting, r.2.events))
    = some (true,
        [QueueCall.Add "a/b/c", QueueCall.Get, QueueCall.AddRateLimited "a/b/c",
          QueueCall.Forget "a/b/c", QueueCall.Done "a/b/c"],
        ["a/b/c"], []) := by
  decide

/-- C6 (amended): for every key that `SplitMetaNamespaceKey` rejects (exactly the
keys with more than one slash) and every state in which `Get` hands out that key,
`syncService` returns the split error without any lister lookup or remote call, and
`processNextWorkItem` returns true after handling it like any other failure: the
error is reported, `AddRateLimited(key)` is called when `NumRequeues(key)` is at
most `maxRetry`, then `Forget(key)` and the deferred `Done(key)`; `Add` is not
called. -/
theorem malformed_key_handling {σ : Type} (c : controller σ) (st : State σ)
    (key : String) (rest : List String) (e : GoError)
    (hsplit : SplitMetaNamespaceKey key = Except.error e)
    (hget : st.queue.queue = key :: rest) :
    2 ≤ key.data.count '/'
    ∧ syncService c st.world key = { world := st.world, events := [], err := some e }
    ∧ ∃ st1, processNextWorkItem c st = some (true, st1)
        ∧ st1.world = st.world ∧ st1.events = st.events
        ∧ st1.reported = st.reported ++ [e]
        ∧ st1.queue.calls
            = st.queue.calls ++ [QueueCall.Get]
              ++ (if st.queue.NumRequeues key ≤ maxRetry
                  then [QueueCall.AddRateLimited key] else [])
              ++ [QueueCall.Forget key, QueueCall.Done key]
        ∧ QueueCall.Add key ∉ st1.queue.calls.drop st.queue.calls.length := by
  refine ⟨(SplitMetaNamespaceKey_error_iff key).mp ⟨e, hsplit⟩,
    syncService_malformed c st.world key e hsplit, ?_⟩
  have hsync := syncService_malformed c st.world key e hsplit
  have hG : st.queue.Get = WorkQueue.GetResult.item key
      { st.queue with
        calls := st.queue.calls ++ [QueueCall.Get]
        queue := rest
        processing := st.queue.processing ++ [key]
        dirty := st.queue.dirty.erase key } := by
    simp [WorkQueue.Get, hget]
  let s0 : State σ :=
    { world := st.world
      queue :=
        { st.queue with
          calls := st.queue.calls ++ [QueueCall.Get]
          queue := rest
          processing := st.queue.processing ++ [key]
          dirty := st.queue.dirty.erase key }
      events := st.events
      reported := st.reported }
  have hp : processNextWorkItem c st
      = some (true, { handleError s0 key e with queue := (handleError s0 key e).queue.Done key }) := by
    simp [processNextWorkItem, hG, hsync, s0]
  have hfr := handleError_frame s0 key e
  have hcalls : ((handleError s0 key e).queue.Done key).calls
      = st.queue.calls ++ [QueueCall.Get]
        ++ (if st.queue.NumRequeues key ≤ maxRetry
            then [QueueCall.AddRateLimited key] else [])
        ++ [QueueCall.Forget key, QueueCall.Done key] := by
    rw [WorkQueue.Done_calls, handleError_calls]
    simp [s0, WorkQueue.NumRequeues]
  refine ⟨_, hp, hfr.1, hfr.2.1, hfr.2.2, hcalls, ?_⟩
  show QueueCall.Add key ∉ List.drop _ ((handleError s0 key e).queue.Done key).calls
  rw [hcalls]
  by_cases h : st.queue.NumRequeues key ≤ maxRetry <;> simp [h]

/-- C6 (witness): the amended statement at the key `"a/b/c"` on top of a fresh queue. -/
theorem malformed_key_handling_witness :
    2 ≤ "a/b/c".data.count '/'
    ∧ ∃ st1, processNextWorkItem clusterController
          { State.start (Cluster.mk [] []) with queue := WorkQueue.empty.Add "a/b/c" }
          = some (true, st1)
        ∧ st1.events = []
        ∧ st1.reported = [GoError.keyFormat "a/b/c"] := by
  have h := malformed_key_handling clusterController
    { State.start (Cluster.mk [] []) with queue := WorkQueue.empty.Add "a/b/c" }
    "a/b/c" [] (GoError.keyFormat "a/b/c") rfl rfl
  obtain ⟨h1, _, st1, h3, _, h5, h6, _⟩ := h
  exact ⟨h1, st1, h3, h5, h6⟩

/-! ## The branches of `syncService` -/

theorem syncService_service_notFound {σ : Type} (c : controller σ) (w : σ)
    (key ns name : String) (e : GoError)
    (hk : SplitMetaNamespaceKey key = Except.ok (ns, name))
    (hs : c.serviceLister w ns name = Except.error e)
    (hnf : IsNotFound (some e) = true) :
    syncService c w key
      = { world := w, events := [Event.mk (Call.serviceGet ns name) (some e)], err := none } := by
  simp [syncService, hk, hs, hnf]

theorem syncService_service_error {σ : Type} (c : controller σ) (w : σ)
    (key ns name : String) (e : GoError)
    (hk : SplitMetaNamespaceKey key = Except.ok (ns, name))
    (hs : c.serviceLister w ns name = Except.error e)
    (hnf : IsNotFound (some e) = false) :
    syncService c w key
      = { world := w, events := [Event.mk (Call.serviceGet ns name) (some e)],
          err := some e } := by
  simp [syncService, hk, hs, hnf]

theorem syncService_ingress_error {σ : Type} (c : controller σ) (w : σ)
    (key ns name : String) (svc : Service) (e : GoError)
    (hk : SplitMetaNamespaceKey key = Except.ok (ns, name))
    (hs : c.serviceLister w ns name = Except.ok svc)
    (hi : c.ingressLister w ns name = Except.error e)
    (hnf : IsNotFound (some e) = false) :
    syncService c w key
      = { world := w
          events := [Event.mk (Call.serviceGet ns name) none,
                     Event.mk (Call.ingressGet ns name) (some e)]
          err := some e } := by
  simp [syncService, hk, hs, hi, goPair, hnf]

theorem syncService_create {σ : Type} (c : controller σ) (w : σ)
    (key ns name : String) (svc : Service) (e : GoError)
    (hk : SplitMetaNamespaceKey key = Except.ok (ns, name))
    (hs : c.serviceLister w ns name = Except.ok svc)
    (hm : hasAnnotationKey svc.toObjectMeta "ingress/http" = true)
    (hi : c.ingressLister w ns name = Except.error e)
    (hnf : IsNotFound (some e) = true) :
    syncService c w key
      = { world := (c.clientCreate w ns (constructIngress svc)).1
          events := [Event.mk (Call.serviceGet ns name) none,
                     Event.mk (Call.ingressGet ns name) (some e),
                     Event.mk (Call.create ns (constructIngress svc))
                       (c.clientCreate w ns (constructIngress svc)).2]
          err := (c.clientCreate w ns (constructIngress svc)).2 } := by
  simp [syncService, hk, hs, hi, goPair, hnf, hm]

theorem syncService_absent_noop {σ : Type} (c : controller σ) (w : σ)
    (key ns name : String) (svc : Service) (e : GoError)
    (hk : SplitMetaNamespaceKey key = Except.ok (ns, name))
    (hs : c.serviceLister w ns name = Except.ok svc)
    (hm : hasAnnotationKey svc.toObjectMeta "ingress/http" = false)
    (hi : c.ingressLister w ns name = Except.error e)
    (hnf : IsNotFound (some e) = true) :
    syncService c w key
      = { world := w
          events := [Event.mk (Call.serviceGet ns name) none,
                     Event.mk (Call.ingressGet ns name) (some e)]
          err := none } := by
  simp [syncService, hk, hs, hi, goPair, hnf, hm]

theorem syncService_delete {σ : Type} (c : controller σ) (w : σ)
    (key ns name : String) (svc : Service) (ig : Ingress)
    (hk : SplitMetaNamespaceKey key = Except.ok (ns, name))
    (hs : c.serviceLister w ns name = Except.ok svc)
    (hm : hasAnnotationKey svc.toObjectMeta "ingress/http" = false)
    (hi : c.ingressLister w ns name = Except.ok ig) :
    syncService c w key
      = { world := (c.clientDelete w ns name).1
          events := [Event.mk (Call.serviceGet ns name) none,
                     Event.mk (Call.ingressGet ns name) none,
                     Event.mk (Call.delete ns name) (c.clientDelete w ns name).2]
          err := (c.clientDelete w ns name).2 } := by
  simp [syncService, hk, hs, hi, goPair, hm, IsNotFound]

theorem syncService_present_noop {σ : Type} (c : controller σ) (w : σ)
    (key ns name : String) (svc : Service) (ig : Ingress)
    (hk : SplitMetaNamespaceKey key = Except.ok (ns, name))
    (hs : c.serviceLister w ns name = Except.ok svc)
    (hm : hasAnnotationKey svc.toObjectMeta "ingress/http" = true)
    (hi : c.ingressLister w ns name = Except.ok ig) :
    syncService c w key
      = { world := w
          events := [Event.mk (Call.serviceGet ns name) none,
                     Event.mk (Call.ingressGet ns name) none]
          err := none } := by
  simp [syncService, hk, hs, hi, goPair, hm, IsNotFound]

theorem hasAnnotationKey_iff (m : ObjectMeta) (key : String) :
    hasAnnotationKey m key = true ↔ ∃ v, (key, v) ∈ m.Annotations := by
  simp only [hasAnnotationKey, List.any_eq_true, beq_iff_eq]
  constructor
  · rintro ⟨⟨k, v⟩, hmem, hk⟩
    exact ⟨v, by simpa [← hk] using hmem⟩
  · rintro ⟨v, hmem⟩
    exact ⟨(key, v), hmem, rfl⟩

/-! ## Reconciliation: create, delete and no-op -/

/-- C1: for every key that splits into `(ns, name)` and every state in which the
service lister returns a Service whose annotations contain the key `ingress/http`
(with any value `v`) and the ingress lister returns NotFound, `syncService` performs
the two lookups and then exactly one remote call, a Create in namespace `ns` of
`constructIngress service`, and no Delete; it returns the error of that Create, so
nil when the Create succeeds.  The created Ingress has the name and namespace of the
Service, exactly one owner reference, which is its controller reference, of kind
`Service`, naming the Service, ingress class `nginx`, and exactly one rule with host
`example.com` and exactly one path `/` whose backend is the Service name on port 80. -/
theorem syncService_creates_ingress {σ : Type} (c : controller σ) (w : σ)
    (key ns name : String) (svc : Service) (v : String) (e : GoError)
    (hk : SplitMetaNamespaceKey key = Except.ok (ns, name))
    (hs : c.serviceLister w ns name = Except.ok svc)
    (hv : ("ingress/http", v) ∈ svc.Annotations)
    (hi : c.ingressLister w ns name = Except.error e)
    (hnf : IsNotFound (some e) = true) :
    (syncService c w key).events
        = [Event.mk (Call.serviceGet ns name) none,
           Event.mk (Call.ingressGet ns name) (some e),
           Event.mk (Call.create ns (constructIngress svc))
             (c.clientCreate w ns (constructIngress svc)).2]
    ∧ (syncService c w key).remoteCalls
        = [Event.mk (Call.create ns (constructIngress svc))
             (c.clientCreate w ns (constructIngress svc)).2]
    ∧ (syncService c w key).err = (c.clientCreate w ns (constructIngress svc)).2
    ∧ ((c.clientCreate w ns (constructIngress svc)).2 = none →
        (syncService c w key).err = none)
    ∧ (constructIngress svc).Name = svc.Name
    ∧ (constructIngress svc).Namespace = svc.Namespace
    ∧ (constructIngress svc).OwnerReferences
        = [{ APIVersion := "v1", Kind := "Service", Name := svc.Name, UID := svc.UID,
             Controller := some true, BlockOwnerDeletion := some true }]
    ∧ GetControllerOf (constructIngress svc).toObjectMeta
        = some { APIVersion := "v1", Kind := "Service", Name := svc.Name, UID := svc.UID,
                 Controller := some true, BlockOwnerDeletion := some true }
    ∧ (constructIngress svc).Spec.IngressClassName = some "nginx"
    ∧ (constructIngress svc).Spec.Rules
        = [{ Host := "example.com"
             HTTP := some
               { Paths :=
                   [{ Path := "/"
                      PathType := some PathType.PathTypePrefix
                      Backend :=
                        { Service := some
                            { Name := svc.Name, Port := { Name := "", Number := 80 } } } }] } }] := by
  have hm : hasAnnotationKey svc.toObjectMeta "ingress/http" = true :=
    (hasAnnotationKey_iff _ _).mpr ⟨v, hv⟩
  have hsync := syncService_create c w key ns name svc e hk hs hm hi hnf
  refine ⟨by rw [hsync], ?_, by rw [hsync], ?_, rfl, rfl, rfl, rfl, rfl, rfl⟩
  · rw [hsync]
    simp [SyncResult.remoteCalls, Event.isRemote]
  · intro h
    rw [hsync]
    exact h

/-- C1 (witness): Scenario A, the key `default/web` in the cluster that holds the
Service `default/web` with the marker and no Ingress. -/
theorem syncService_creates_ingress_witness :
    (syncService clusterController (Cluster.mk [webService] []) "default/web").remoteCalls
        = [Event.mk (Call.create "default" (constructIngress webService)) none]
    ∧ (syncService clusterController (Cluster.mk [webService] []) "default/web").err = none := by
  have h := syncService_creates_ingress clusterController (Cluster.mk [webService] [])
    "default/web" "default" "web" webService "" (GoError.notFound "web")
    rfl rfl (by decide) rfl rfl
  exact ⟨h.2.1, h.2.2.1⟩

/-- C2 (the code at the failing input): Scenario B.  In the cluster that holds no
Service and the Ingress `default/web`, the ingress lister returns that Ingress, yet
`syncService` on the key `default/web` stops at the NotFound of the service lookup:
it performs that one lookup, issues no Delete (no remote call at all), returns nil
and leaves the Ingress in place. -/
theorem syncService_orphan_ingress_not_deleted :
    clusterController.ingressLister (Cluster.mk [] [webIngress]) "default" "web"
        = Except.ok webIngress
    ∧ (syncService clusterController (Cluster.mk [] [webIngress]) "default/web").events
        = [Event.mk (Call.serviceGet "default" "web") (some (GoError.notFound "web"))]
    ∧ (syncService clusterController (Cluster.mk [] [webIngress]) "default/web").remoteCalls
        = []
    ∧ (syncService clusterController (Cluster.mk [] [webIngress]) "default/web").err = none
    ∧ (syncService clusterController (Cluster.mk [] [webIngress]) "default/web").world
        = Cluster.mk [] [webIngress] := by
  refine ⟨by decide, by decide, by decide, by decide, by decide⟩

theorem syncServiceTimes_noop {σ : Type} (c : controller σ) (w : σ) (key : String)
    (evs : List Event)
    (h : syncService c w key = { world := w, events := evs, err := none }) (n : Nat) :
    ∀ r ∈ syncServiceTimes c key n w, r = { world := w, events := evs, err := none } := by
  induction n with
  | zero => simp [syncServiceTimes]
  | succ k ih =>
    intro r hr
    simp only [syncServiceTimes, List.mem_cons] at hr
    rcases hr with hr | hr
    · rw [hr, h]
    · rw [h] at hr
      exact ih r hr

theorem hasAnnotationKey_mapAnnotationValues (f : String → String → String) (svc : Service)
    (key : String) :
    hasAnnotationKey (svc.mapAnnotationValues f).toObjectMeta key
      = hasAnnotationKey svc.toObjectMeta key := by
  simp [hasAnnotationKey, Service.mapAnnotationValues, List.any_map, Function.comp_def]

theorem syncService_mapAnnotationValues {σ : Type} (c : controller σ) (w : σ)
    (key : String) (f : String → String → String) :
    syncService (c.mapServices (Service.mapAnnotationValues f)) w key
      = syncService c w key := by
  unfold syncService
  cases hk : SplitMetaNamespaceKey key with
  | error e => rfl
  | ok p =>
    obtain ⟨ns, name⟩ := p
    simp only [controller.mapServices]
    cases hs : c.serviceLister w ns name with
    | error e => rfl
    | ok svc =>
      have hc : constructIngress (svc.mapAnnotationValues f) = constructIngress svc := rfl
      simp only [Except.map, hasAnnotationKey_mapAnnotationValues, hc]

/-- C4: decision table of `syncService` for a key that splits into `(ns, name)` when
the service lister returns a Service.  (a) Marker annotation absent and Ingress
present: the two lookups, then exactly one remote call, a Delete of `name` in `ns`,
and no Create.  (b) Marker absent and Ingress absent (NotFound), and (c) marker
present (with any value `v`) and Ingress present: every one of `n` repeated runs
performs no remote call, returns nil and leaves the world unchanged, for every `n`.
(d) Only the presence of the annotation key matters: replacing every annotation value
of the Services the lister returns by any other value changes nothing in the result
of `syncService`. -/
theorem syncService_decision_table {σ : Type} (c : controller σ) (w : σ)
    (key ns name : String) (svc : Service)
    (hk : SplitMetaNamespaceKey key = Except.ok (ns, name))
    (hs : c.serviceLister w ns name = Except.ok svc) :
    (∀ ig, (∀ v, ("ingress/http", v) ∉ svc.Annotations) →
        c.ingressLister w ns name = Except.ok ig →
        (syncService c w key).events
            = [Event.mk (Call.serviceGet ns name) none,
               Event.mk (Call.ingressGet ns name) none,
               Event.mk (Call.delete ns name) (c.clientDelete w ns name).2]
        ∧ (syncService c w key).remoteCalls
            = [Event.mk (Call.delete ns name) (c.clientDelete w ns name).2]
        ∧ (syncService c w key).err = (c.clientDelete w ns name).2)
    ∧ (∀ e n, (∀ v, ("ingress/http", v) ∉ svc.Annotations) →
        c.ingressLister w ns name = Except.error e → IsNotFound (some e) = true →
        (syncServiceTimes c key n w).length = n
        ∧ ∀ r ∈ syncServiceTimes c key n w,
            r.remoteCalls = [] ∧ r.err = none ∧ r.world = w)
    ∧ (∀ ig v n, ("ingress/http", v) ∈ svc.Annotations →
        c.ingressLister w ns name = Except.ok ig →
        (syncServiceTimes c key n w).length = n
        ∧ ∀ r ∈ syncServiceTimes c key n w,
            r.remoteCalls = [] ∧ r.err = none ∧ r.world = w)
    ∧ (∀ f : String → String → String,
        syncService (c.mapServices (Service.mapAnnotationValues f)) w key
          = syncService c w key) := by
  have hlen : ∀ n (w1 : σ), (syncServiceTimes c key n w1).length = n := by
    intro n
    induction n with
    | zero => intro _; rfl
    | succ k ih => intro w1; simp [syncServiceTimes, ih]
  have habs : (∀ v, ("ingress/http", v) ∉ svc.Annotations) →
      hasAnnotationKey svc.toObjectMeta "ingress/http" = false := by
    intro h
    cases hb : hasAnnotationKey svc.toObjectMeta "ingress/http" with
    | false => rfl
    | true =>
      obtain ⟨v, hv⟩ := (hasAnnotationKey_iff _ _).mp hb
      exact absurd hv (h v)
  refine ⟨?_, ?_, ?_, ?_⟩
  · intro ig hno hi
    have hsync := syncService_delete c w key ns name svc ig hk hs (habs hno) hi
    refine ⟨by rw [hsync], ?_, by rw [hsync]⟩
    rw [hsync]
    simp [SyncResult.remoteCalls, Event.isRemote]
  · intro e n hno hi hnf
    have hsync := syncService_absent_noop c w key ns name svc e hk hs (habs hno) hi hnf
    refine ⟨hlen n w, ?_⟩
    intro r hr
    rw [syncServiceTimes_noop c w key _ hsync n r hr]
    simp [SyncResult.remoteCalls, Event.isRemote]
  · intro ig v n hv hi
    have hm : hasAnnotationKey svc.toObjectMeta "ingress/http" = true :=
      (hasAnnotationKey_iff _ _).mpr ⟨v, hv⟩
    have hsync := syncService_present_noop c w key ns name svc ig hk hs hm hi
    refine ⟨hlen n w, ?_⟩
    intro r hr
    rw [syncServiceTimes_noop c w key _ hsync n r hr]
    simp [SyncResult.remoteCalls, Event.isRemote]
  · intro f
    exact syncService_mapAnnotationValues c w key f

/-- C4 (witness): the decision table at the key `default/web`: the Service without
the marker next to the owned Ingress gives one Delete, and three runs in a row with
the marker and the Ingress both present give no remote call. -/
theorem syncService_decision_table_witness :
    (syncService clusterController (Cluster.mk [plainService] [webIngress])
        "default/web").remoteCalls
      = [Event.mk (Call.delete "default" "web") none]
    ∧ (∀ r ∈ syncServiceTimes clusterController "default/web" 3
          (Cluster.mk [webService] [webIngress]),
        r.remoteCalls = [] ∧ r.err = none
        ∧ r.world = Cluster.mk [webService] [webIngress]) := by
  have h1 := syncService_decision_table clusterController
    (Cluster.mk [plainService] [webIngress]) "default/web" "default" "web" plainService
    rfl rfl
  have h2 := syncService_decision_table clusterController
    (Cluster.mk [webService] [webIngress]) "default/web" "default" "web" webService
    rfl rfl
  exact ⟨(h1.1 webIngress (fun v hv => by simp [plainService] at hv) rfl).2.1,
    (h2.2.2.1 webIngress "" 3 (by decide) rfl).2⟩

/-! ## Error propagation -/

/-- C10: error propagation of `syncService` for a key that splits into `(ns, name)`,
in terms of what the listers and the client return in the current world.
(1) A service lookup that fails with an error `e` other than NotFound: `e` is
returned, no remote call is issued and the world is unchanged.  (2) A service lookup
that reports NotFound: nil is returned and no remote call is issued.  (3) With the
Service found, an ingress lookup that fails with an error `e` other than NotFound:
`e` is returned, no remote call, world unchanged.  (4) With the Service found and the
ingress lookup reporting NotFound: with the marker the one remote call is the Create
of `constructIngress service` and its error is returned unmodified; without the marker
there is no remote call and nil is returned.  (5) With the Service and the Ingress
found: without the marker the one remote call is the Delete and its error is returned
unmodified; with the marker there is no remote call and nil is returned.  (6) There is
at most one remote call.  (7) The error returned is `e` if and only if the service
lookup fails with `e` other than NotFound, or the Service is found and the ingress
lookup fails with `e` other than NotFound, or the remote call issued fails with `e`. -/
theorem syncService_error_propagation {σ : Type} (c : controller σ) (w : σ)
    (key ns name : String)
    (hk : SplitMetaNamespaceKey key = Except.ok (ns, name)) :
    (∀ e, c.serviceLister w ns name = Except.error e → IsNotFound (some e) = false →
        (syncService c w key).err = some e
        ∧ (syncService c w key).events = [Event.mk (Call.serviceGet ns name) (some e)]
        ∧ (syncService c w key).remoteCalls = []
        ∧ (syncService c w key).world = w)
    ∧ (∀ e, c.serviceLister w ns name = Except.error e → IsNotFound (some e) = true →
        (syncService c w key).err = none
        ∧ (syncService c w key).remoteCalls = []
        ∧ (syncService c w key).world = w)
    ∧ (∀ svc e, c.serviceLister w ns name = Except.ok svc →
        c.ingressLister w ns name = Except.error e → IsNotFound (some e) = false →
        (syncService c w key).err = some e
        ∧ (syncService c w key).events
            = [Event.mk (Call.serviceGet ns name) none,
               Event.mk (Call.ingressGet ns name) (some e)]
        ∧ (syncService c w key).remoteCalls = []
        ∧ (syncService c w key).world = w)
    ∧ (∀ svc e, c.serviceLister w ns name = Except.ok svc →
        c.ingressLister w ns name = Except.error e → IsNotFound (some e) = true →
        (hasAnnotationKey svc.toObjectMeta "ingress/http" = true →
          (syncService c w key).remoteCalls
              = [Event.mk (Call.create ns (constructIngress svc))
                   (c.clientCreate w ns (constructIngress svc)).2]
          ∧ (syncService c w key).err = (c.clientCreate w ns (constructIngress svc)).2)
        ∧ (hasAnnotationKey svc.toObjectMeta "ingress/http" = false →
          (syncService c w key).remoteCalls = [] ∧ (syncService c w key).err = none))
    ∧ (∀ svc ig, c.serviceLister w ns name = Except.ok svc →
        c.ingressLister w ns name = Except.ok ig →
        (hasAnnotationKey svc.toObjectMeta "ingress/http" = false →
          (syncService c w key).remoteCalls
              = [Event.mk (Call.delete ns name) (c.clientDelete w ns name).2]
          ∧ (syncService c w key).err = (c.clientDelete w ns name).2)
        ∧ (hasAnnotationKey svc.toObjectMeta "ingress/http" = true →
          (syncService c w key).remoteCalls = [] ∧ (syncService c w key).err = none))
    ∧ (syncService c w key).remoteCalls.length ≤ 1
    ∧ (∀ e, (syncService c w key).err = some e ↔
        (c.serviceLister w ns name = Except.error e ∧ IsNotFound (some e) = false)
        ∨ (∃ svc, c.serviceLister w ns name = Except.ok svc
            ∧ c.ingressLister w ns name = Except.error e ∧ IsNotFound (some e) = false)
        ∨ (∃ ev ∈ (syncService c w key).remoteCalls, ev.err = some e)) := by
  refine ⟨?_, ?_, ?_, ?_, ?_, ?_, ?_⟩
  · intro e hs hnf
    rw [syncService_service_error c w key ns name e hk hs hnf]
    simp [SyncResult.remoteCalls, Event.isRemote]
  · intro e hs hnf
    rw [syncService_service_notFound c w key ns name e hk hs hnf]
    simp [SyncResult.remoteCalls, Event.isRemote]
  · intro svc e hs hi hnf
    rw [syncService_ingress_error c w key ns name svc e hk hs hi hnf]
    simp [SyncResult.remoteCalls, Event.isRemote]
  · intro svc e hs hi hnf
    constructor
    · intro hm
      rw [syncService_create c w key ns name svc e hk hs hm hi hnf]
      simp [SyncResult.remoteCalls, Event.isRemote]
    · intro hm
      rw [syncService_absent_noop c w key ns name svc e hk hs hm hi hnf]
      simp [SyncResult.remoteCalls, Event.isRemote]
  · intro svc ig hs hi
    constructor
    · intro hm
      rw [syncService_delete c w key ns name svc ig hk hs hm hi]
      simp [SyncResult.remoteCalls, Event.isRemote]
    · intro hm
      rw [syncService_present_noop c w key ns name svc ig hk hs hm hi]
      simp [SyncResult.remoteCalls, Event.isRemote]
  · cases hs : c.serviceLister w ns name with
    | error e =>
      cases hnf : IsNotFound (some e) with
      | true =>
        rw [syncService_service_notFound c w key ns name e hk hs hnf]
        simp [SyncResult.remoteCalls, Event.isRemote]
      | false =>
        rw [syncService_service_error c w key ns name e hk hs hnf]
        simp [SyncResult.remoteCalls, Event.isRemote]
    | ok svc =>
      cases hi : c.ingressLister w ns name with
      | error e =>
        cases hnf : IsNotFound (some e) with
        | false =>
          rw [syncService_ingress_error c w key ns name svc e hk hs hi hnf]
          simp [SyncResult.remoteCalls, Event.isRemote]
        | true =>
          cases hm : hasAnnotationKey svc.toObjectMeta "ingress/http" with
          | true =>
            rw [syncService_create c w key ns name svc e hk hs hm hi hnf]
            simp [SyncResult.remoteCalls, Event.isRemote]
          | false =>
            rw [syncService_absent_noop c w key ns name svc e hk hs hm hi hnf]
            simp [SyncResult.remoteCalls, Event.isRemote]
      | ok ig =>
        cases hm : hasAnnotationKey svc.toObjectMeta "ingress/http" with
        | true =>
          rw [syncService_present_noop c w key ns name svc ig hk hs hm hi]
          simp [SyncResult.remoteCalls, Event.isRemote]
        | false =>
          rw [syncService_delete c w key ns name svc ig hk hs hm hi]
          simp [SyncResult.remoteCalls, Event.isRemote]
  · intro e1
    cases hs : c.serviceLister w ns name with
    | error e =>
      cases hnf : IsNotFound (some e) with
      | true =>
        rw [syncService_service_notFound c w key ns name e hk hs hnf]
        simp [SyncResult.remoteCalls, Event.isRemote]
        intro h
        rw [← h, hnf]
      | false =>
        rw [syncService_service_error c w key ns name e hk hs hnf]
        simp [SyncResult.remoteCalls, Event.isRemote]
        intro h
        rw [← h]
        exact hnf
    | ok svc =>
      cases hi : c.ingressLister w ns name with
      | error e =>
        cases hnf : IsNotFound (some e) with
        | false =>
          rw [syncService_ingress_error c w key ns name svc e hk hs hi hnf]
          simp [SyncResult.remoteCalls, Event.isRemote]
          intro h
          rw [← h]
          exact hnf
        | true =>
          cases hm : hasAnnotationKey svc.toObjectMeta "ingress/http" with
          | true =>
            rw [syncService_create c w key ns name svc e hk hs hm hi hnf]
            simp [SyncResult.remoteCalls, Event.isRemote]
            intro h1 h2
            rw [← h1, hnf] at h2
            exact absurd h2 (by simp)
          | false =>
            rw [syncService_absent_noop c w key ns name svc e hk hs hm hi hnf]
            simp [SyncResult.remoteCalls, Event.isRemote]
            intro h1
            rw [← h1, hnf]
      | ok ig =>
        cases hm : hasAnnotationKey svc.toObjectMeta "ingress/http" with
        | true =>
          rw [syncService_present_noop c w key ns name svc ig hk hs hm hi]
          simp [SyncResult.remoteCalls, Event.isRemote]
        | false =>
          rw [syncService_delete c w key ns name svc ig hk hs hm hi]
          simp [SyncResult.remoteCalls, Event.isRemote]

/-- C10 (witness): the key `default/web` when the Service is found and the ingress
lister fails with an error that is not NotFound: that error is returned and no remote
call is issued. -/
theorem syncService_error_propagation_witness :
    (syncService brokenListerController (Cluster.mk [webService] [])
        "default/web").err = some (GoError.other "timeout")
    ∧ (syncService brokenListerController (Cluster.mk [webService] [])
        "default/web").events
      = [Event.mk (Call.serviceGet "default" "web") none,
         Event.mk (Call.ingressGet "default" "web") (some (GoError.other "timeout"))]
    ∧ (syncService brokenListerController (Cluster.mk [webService] [])
        "default/web").remoteCalls = []
    ∧ (syncService brokenListerController (Cluster.mk [webService] [])
        "default/web").world = Cluster.mk [webService] [] :=
  (syncService_error_propagation brokenListerController (Cluster.mk [webService] [])
    "default/web" "default" "web" rfl).2.2.1 webService (GoError.other "timeout")
    rfl rfl rfl

/-! ## Idempotence over a cluster whose remote calls succeed -/

theorem clusterController_serviceLister_some (w : Cluster) (ns name : String) (svc : Service)
    (h : w.services.find? (fun s => s.isNamed ns name) = some svc) :
    clusterController.serviceLister w ns name = Except.ok svc := by
  simp [clusterController, h]

theorem clusterController_serviceLister_none (w : Cluster) (ns name : String)
    (h : w.services.find? (fun s => s.isNamed ns name) = none) :
    clusterController.serviceLister w ns name = Except.error (GoError.notFound name) := by
  simp [clusterController, h]

theorem clusterController_ingressLister_some (w : Cluster) (ns name : String) (ig : Ingress)
    (h : w.ingresses.find? (fun i => i.isNamed ns name) = some ig) :
    clusterController.ingressLister w ns name = Except.ok ig := by
  simp [clusterController, h]

theorem clusterController_ingressLister_none (w : Cluster) (ns name : String)
    (h : w.ingresses.find? (fun i => i.isNamed ns name) = none) :
    clusterController.ingressLister w ns name = Except.error (GoError.notFound name) := by
  simp [clusterController, h]

/-- C3: idempotence of `syncService` over a cluster in which remote Create and Delete
succeed and the ingress lister reads the remote store: for every key and every
initial cluster, two runs in a row on the same key issue at most one remote call in
total, every remote call succeeds, the second run issues no remote call, and the
cluster after the second run is the cluster after the first. -/
theorem syncService_idempotent (w : Cluster) (key : String) :
    (syncService clusterController w key).remoteCalls.length
        + (syncService clusterController
            (syncService clusterController w key).world key).remoteCalls.length ≤ 1
    ∧ (∀ ev ∈ (syncService clusterController w key).remoteCalls, ev.err = none)
    ∧ (syncService clusterController
        (syncService clusterController w key).world key).remoteCalls = []
    ∧ (syncService clusterController
        (syncService clusterController w key).world key).world
      = (syncService clusterController w key).world := by
  cases hk : SplitMetaNamespaceKey key with
  | error e =>
    simp [syncService_malformed _ _ key e hk, SyncResult.remoteCalls]
  | ok p =>
    obtain ⟨ns, name⟩ := p
    have hnf : IsNotFound (some (GoError.notFound name)) = true := rfl
    cases hfs : w.services.find? (fun s => s.isNamed ns name) with
    | none =>
      have hs := clusterController_serviceLister_none w ns name hfs
      have h1 := syncService_service_notFound clusterController w key ns name _ hk hs hnf
      rw [h1]
      simp only
      rw [h1]
      simp [SyncResult.remoteCalls, Event.isRemote]
    | some svc =>
      have hs := clusterController_serviceLister_some w ns name svc hfs
      have hnamed : svc.Name = name := by
        have := List.find?_some hfs
        simp [ObjectMeta.isNamed] at this
        exact this.2
      cases hfi : w.ingresses.find? (fun i => i.isNamed ns name) with
      | none =>
        have hi := clusterController_ingressLister_none w ns name hfi
        cases hm : hasAnnotationKey svc.toObjectMeta "ingress/http" with
        | true =>
          have h1 := syncService_create clusterController w key ns name svc _ hk hs hm hi hnf
          rw [h1]
          simp only
          have hs2 : clusterController.serviceLister
              (clusterController.clientCreate w ns (constructIngress svc)).1 ns name
              = Except.ok svc :=
            clusterController_serviceLister_some _ ns name svc hfs
          have hi2 : clusterController.ingressLister
              (clusterController.clientCreate w ns (constructIngress svc)).1 ns name
              = Except.ok { constructIngress svc with Namespace := ns } := by
            apply clusterController_ingressLister_some
            show List.find? _ (w.ingresses ++ [_]) = _
            rw [List.find?_append, hfi]
            simp [ObjectMeta.isNamed, constructIngress, hnamed]
          rw [syncService_present_noop clusterController _ key ns name svc _ hk hs2 hm hi2]
          simp [SyncResult.remoteCalls, Event.isRemote, clusterController]
        | false =>
          have h1 := syncService_absent_noop clusterController w key ns name svc _ hk hs hm
            hi hnf
          rw [h1]
          simp only
          rw [h1]
          simp [SyncResult.remoteCalls, Event.isRemote]
      | some ig =>
        have hi := clusterController_ingressLister_some w ns name ig hfi
        cases hm : hasAnnotationKey svc.toObjectMeta "ingress/http" with
        | true =>
          have h1 := syncService_present_noop clusterController w key ns name svc ig hk hs
            hm hi
          rw [h1]
          simp only
          rw [h1]
          simp [SyncResult.remoteCalls, Event.isRemote]
        | false =>
          have h1 := syncService_delete clusterController w key ns name svc ig hk hs hm hi
          rw [h1]
          simp only
          have hs2 : clusterController.serviceLister
              (clusterController.clientDelete w ns name).1 ns name = Except.ok svc :=
            clusterController_serviceLister_some _ ns name svc hfs
          have hi2 : clusterController.ingressLister
              (clusterController.clientDelete w ns name).1 ns name
              = Except.error (GoError.notFound name) := by
            apply clusterController_ingressLister_none
            simp [clusterController, List.find?_eq_none, List.mem_filter]
          rw [syncService_absent_noop clusterController _ key ns name svc _ hk hs2 hm hi2 hnf]
          simp [SyncResult.remoteCalls, Event.isRemote, clusterController]

/-! ## Key stability -/

/-- C9 (counterexample): for the empty namespace the key function used by `enqueue`
gives `"web"` while `deleteIngress` builds `"/web"`, so the two keys differ; and for a
name that contains a slash the common key does not split back. -/
theorem key_stability_fails :
    (MetaNamespaceKeyFunc (Obj.service
        { Name := "web", Namespace := "", UID := "", Annotations := [],
          OwnerReferences := [] })).1
      ≠ deleteIngressKey
        { Name := "web", Namespace := "", UID := "", Annotations := [],
          OwnerReferences := [], Spec := { IngressClassName := none, Rules := [] } }
    ∧ SplitMetaNamespaceKey (deleteIngressKey
        { Name := "a/b", Namespace := "default", UID := "", Annotations := [],
          OwnerReferences := [], Spec := { IngressClassName := none, Rules := [] } })
      = Except.error (GoError.keyFormat "default/a/b") := by
  constructor
  · decide
  · rfl

/-- C9 (amended): for a namespace `ns` and a name `n` without a slash, the key that
`enqueue` computes for a Service named `(ns, n)` and the key that `deleteIngress`
builds for an Ingress named `(ns, n)` both split back to `(ns, n)` without error; when
`ns` is not empty the two keys are equal and are `ns ++ "/" ++ n`; when `ns` is empty
the first is `n` and the second is `"/" ++ n`. -/
theorem key_stability (ns n : String) (svc : Service) (ig : Ingress)
    (hns : '/' ∉ ns.data) (hn : '/' ∉ n.data)
    (hsvc : svc.Namespace = ns ∧ svc.Name = n)
    (hig : ig.Namespace = ns ∧ ig.Name = n) :
    MetaNamespaceKeyFunc (Obj.service svc) = (if ns = "" then n else ns ++ "/" ++ n, none)
    ∧ deleteIngressKey ig = ns ++ "/" ++ n
    ∧ (ns ≠ "" → (MetaNamespaceKeyFunc (Obj.service svc)).1 = deleteIngressKey ig)
    ∧ SplitMetaNamespaceKey (MetaNamespaceKeyFunc (Obj.service svc)).1 = Except.ok (ns, n)
    ∧ SplitMetaNamespaceKey (deleteIngressKey ig) = Except.ok (ns, n) := by
  obtain ⟨hs1, hs2⟩ := hsvc
  obtain ⟨hi1, hi2⟩ := hig
  have hlen : ns.length > 0 ↔ ns ≠ "" := by
    rw [String.length, gt_iff_lt, List.length_pos]
    constructor
    · intro h e
      apply h
      rw [e]
    · intro h e
      apply h
      exact String.ext e
  have hk : MetaNamespaceKeyFunc (Obj.service svc)
      = (if ns = "" then n else ns ++ "/" ++ n, none) := by
    simp only [MetaNamespaceKeyFunc, objectNameString, hs1, hs2]
    by_cases h : ns = ""
    · simp [h]
    · simp [h, hlen.mpr h]
  have hd : deleteIngressKey ig = ns ++ "/" ++ n := by
    simp [deleteIngressKey, hi1, hi2]
  refine ⟨hk, hd, ?_, ?_, ?_⟩
  · intro h
    rw [hk, hd]
    simp [h]
  · rw [hk]
    by_cases h : ns = ""
    · simp only [h, if_true]
      exact SplitMetaNamespaceKey_bare n hn
    · simp only [h, if_false]
      exact SplitMetaNamespaceKey_joined ns n hns hn
  · rw [hd]
    exact SplitMetaNamespaceKey_joined ns n hns hn

/-- C9 (witness): the amended statement at the Service and the Ingress `default/web`. -/
theorem key_stability_witness :
    MetaNamespaceKeyFunc (Obj.service
        { Name := "web", Namespace := "default", UID := "u", Annotations := [],
          OwnerReferences := [] }) = ("default/web", none)
    ∧ SplitMetaNamespaceKey "default/web" = Except.ok ("default", "web") := by
  have h := key_stability "default" "web"
    { Name := "web", Namespace := "default", UID := "u", Annotations := [],
      OwnerReferences := [] }
    { Name := "web", Namespace := "default", UID := "", Annotations := [],
      OwnerReferences := [], Spec := { IngressClassName := none, Rules := [] } }
    (by decide) (by decide) ⟨rfl, rfl⟩ ⟨rfl, rfl⟩
  exact ⟨rfl, h.2.2.2.2⟩

end IngressController
